import Mathlib

/-!
Verification development for the roomloop-server realtime core.

The definitions below are shallow embeddings, translated directly from the
TypeScript sources:

* account lockout tracker        — src/middleware/security.ts
* cache service (fail-open)      — src/services/cache.ts
* socket event handlers          — src/index.ts
* resilient database connector   — src/config/database.ts

Machine integers do not overflow in any of the embedded code paths
(timestamps and counters are small), so Nat is used for times (epoch
milliseconds) and counters.
-/

/-! ## Account lockout tracker (src/middleware/security.ts) -/

/-- One entry of the in-memory `loginAttempts` map
(`interface LoginAttempt` in security.ts): a failure counter, the time of
the last attempt, and an optional lockout expiry instant. -/
structure LoginAttempt where
  count : Nat
  lastAttempt : Nat
  lockedUntil : Option Nat
  deriving Repr, DecidableEq

/-- The `loginAttempts` map, `Map<string, LoginAttempt>`, as an association
list with at most one binding per key (observed only through lookup). -/
abbrev AttemptMap := List (String × LoginAttempt)

def lookupAttempt (m : AttemptMap) (id : String) : Option LoginAttempt :=
  (m.find? (fun p => p.1 == id)).map (fun p => p.2)

def eraseAttempt (m : AttemptMap) (id : String) : AttemptMap :=
  m.filter (fun p => p.1 != id)

def setAttempt (m : AttemptMap) (id : String) (a : LoginAttempt) : AttemptMap :=
  (id, a) :: eraseAttempt m id

/-- `attempt.count >= 10` in `recordLoginAttempt`. -/
def lockoutThreshold : Nat := 10

/-- `5 * 60 * 1000` ms in `recordLoginAttempt`. -/
def lockoutDurationMs : Nat := 5 * 60 * 1000

/-- `24 * 60 * 60 * 1000` ms in the hourly cleanup interval. -/
def stalenessMs : Nat := 24 * 60 * 60 * 1000

/-- The lazily created record `{ count: 0, lastAttempt: new Date() }`. -/
def freshAttempt (now : Nat) : LoginAttempt :=
  { count := 0, lastAttempt := now, lockedUntil := none }

/-- The failure branch of `recordLoginAttempt`: increment the counter, stamp
the time, and (re)set `lockedUntil` when the counter has reached the
threshold. -/
def failUpdate (a : LoginAttempt) (now : Nat) : LoginAttempt :=
  let a1 : LoginAttempt := { a with count := a.count + 1, lastAttempt := now }
  if lockoutThreshold ≤ a1.count then
    { a1 with lockedUntil := some (now + lockoutDurationMs) }
  else a1

/-- `recordLoginAttempt(identifier, success)` from security.ts, acting on the
`loginAttempts` map at time `now`: on success the record is deleted; on
failure the (lazily created) record is updated by `failUpdate` and stored. -/
def recordLoginAttempt (m : AttemptMap) (id : String) (success : Bool)
    (now : Nat) : AttemptMap :=
  let a := (lookupAttempt m id).getD (freshAttempt now)
  if success then eraseAttempt m id
  else setAttempt m id (failUpdate a now)

/-- `Math.ceil((lockedUntil - Date.now()) / 1000 / 60)` for `now < lockedUntil`:
ceiling division of the remaining milliseconds by 60000. -/
def remainingMinutes (lockedUntil now : Nat) : Nat :=
  (lockedUntil - now + 59999) / 60000

/-- The 423 response body text built in `checkAccountLockout`. -/
def lockedMessage (lockedUntil now : Nat) : String :=
  "Account temporarily locked. Try again in " ++
    toString (remainingMinutes lockedUntil now) ++ " minutes."

/-- An HTTP rejection produced by the middleware. -/
structure HttpReject where
  status : Nat
  message : String
  deriving Repr, DecidableEq

/-- `checkAccountLockout` middleware from security.ts: reads only the
in-memory `loginAttempts` map and the clock (it never touches the primary
store); returns `some` rejection (status 423 with the remaining-minutes
message) when the identifier is locked and the lock has not expired,
`none` when the request passes on to `next()`. It never mutates the map. -/
def checkAccountLockout (m : AttemptMap) (id : String) (now : Nat) :
    Option HttpReject :=
  match lookupAttempt m id with
  | none => none
  | some a =>
    match a.lockedUntil with
    | none => none
    | some lu =>
      if now < lu then some { status := 423, message := lockedMessage lu now }
      else none

/-- Keep-predicate of the hourly `setInterval` sweep in security.ts: an entry
is deleted when its lock has expired (`now > lockedUntil`), or else when it
is older than 24 hours. -/
def sweepKeep (a : LoginAttempt) (now : Nat) : Bool :=
  match a.lockedUntil with
  | some lu => if lu < now then false else !(stalenessMs < now - a.lastAttempt)
  | none => !(stalenessMs < now - a.lastAttempt)

/-- The hourly cleanup sweep over the whole map. -/
def cleanupSweep (m : AttemptMap) (now : Nat) : AttemptMap :=
  m.filter (fun p => sweepKeep p.2 now)

/-- Operations that touch the `loginAttempts` map, each stamped with the
time at which it runs. `recordLoginAttempt` is synchronous in the
single-threaded event loop, so each operation is atomic and a concurrent
workload is an arbitrary sequence of these operations. -/
inductive LockoutOp where
  | fail (id : String) (now : Nat)
  | succeed (id : String) (now : Nat)
  | check (id : String) (now : Nat)
  | sweep (now : Nat)
  deriving Repr, DecidableEq

/-- Effect of one operation on the map. A lockout check reads the map but
never modifies it (see `checkAccountLockout` in security.ts). -/
def applyOp (m : AttemptMap) : LockoutOp → AttemptMap
  | .fail id now => recordLoginAttempt m id false now
  | .succeed id now => recordLoginAttempt m id true now
  | .check _ _ => m
  | .sweep now => cleanupSweep m now

def runOps (m : AttemptMap) (ops : List LockoutOp) : AttemptMap :=
  ops.foldl applyOp m

def opTime : LockoutOp → Nat
  | .fail _ n => n
  | .succeed _ n => n
  | .check _ n => n
  | .sweep n => n

/-- A trace is valid when its operation times are nondecreasing from the
given start time (real time only moves forward). -/
def timesMono : Nat → List LockoutOp → Bool
  | _, [] => true
  | t, op :: rest => (t ≤ opTime op) && timesMono (opTime op) rest

/-! ### Basic lemmas about the lockout map -/

theorem lookupAttempt_setAttempt_self (m : AttemptMap) (id : String)
    (a : LoginAttempt) : lookupAttempt (setAttempt m id a) id = some a := by
  simp [lookupAttempt, setAttempt, List.find?]

theorem lookupAttempt_eraseAttempt_self (m : AttemptMap) (id : String) :
    lookupAttempt (eraseAttempt m id) id = none := by
  have h : List.find? (fun p => p.1 == id) (eraseAttempt m id) = none := by
    rw [List.find?_eq_none]
    intro p hp
    have h2 := (List.mem_filter.mp hp).2
    simpa using h2
  simp [lookupAttempt, h]

theorem lookupAttempt_recordFail (m : AttemptMap) (id : String) (now : Nat) :
    lookupAttempt (recordLoginAttempt m id false now) id
      = some (failUpdate ((lookupAttempt m id).getD (freshAttempt now)) now) := by
  simp [recordLoginAttempt, lookupAttempt_setAttempt_self]

theorem lookupAttempt_recordSuccess (m : AttemptMap) (id : String) (now : Nat) :
    lookupAttempt (recordLoginAttempt m id true now) id = none := by
  simp [recordLoginAttempt, lookupAttempt_eraseAttempt_self]

/-- Iterating the failure branch over a single identifier's record, one
failure time per list element. Matches `recordLoginAttempt` restricted to
that identifier's entry. -/
def iterFail (a : Option LoginAttempt) (ts : List Nat) : Option LoginAttempt :=
  ts.foldl (fun acc t => some (failUpdate (acc.getD (freshAttempt t)) t)) a

theorem runOps_fails_eq_iterFail (id : String) :
    ∀ (ts : List Nat) (m : AttemptMap),
      lookupAttempt (runOps m (ts.map (fun t => LockoutOp.fail id t))) id
        = iterFail (lookupAttempt m id) ts := by
  intro ts
  induction ts with
  | nil => intro m; rfl
  | cons t rest ih =>
    intro m
    have h1 : runOps m ((t :: rest).map (fun t => LockoutOp.fail id t))
        = runOps (recordLoginAttempt m id false t)
            (rest.map (fun t => LockoutOp.fail id t)) := rfl
    rw [h1, ih, lookupAttempt_recordFail]
    rfl

theorem failUpdate_count (a : LoginAttempt) (now : Nat) :
    (failUpdate a now).count = a.count + 1 := by
  simp only [failUpdate]
  split <;> rfl

theorem failUpdate_lastAttempt (a : LoginAttempt) (now : Nat) :
    (failUpdate a now).lastAttempt = now := by
  simp only [failUpdate]
  split <;> rfl

theorem failUpdate_lockedUntil (a : LoginAttempt) (now : Nat) :
    (failUpdate a now).lockedUntil =
      if lockoutThreshold ≤ a.count + 1 then some (now + lockoutDurationMs)
      else a.lockedUntil := by
  simp only [failUpdate]
  split <;> rfl

/-- Characterization of a nonempty run of failures on an existing record:
the counter adds the number of failures, the stamp is the last failure time,
and the lock is `lastTime + lockoutDurationMs` when the final counter has
reached the threshold, otherwise untouched. -/
theorem iterFail_some_char :
    ∀ (ts : List Nat) (a : LoginAttempt) (h : ts ≠ []),
      iterFail (some a) ts
        = some { count := a.count + ts.length, lastAttempt := ts.getLast h,
                 lockedUntil :=
                   if lockoutThreshold ≤ a.count + ts.length then
                     some (ts.getLast h + lockoutDurationMs)
                   else a.lockedUntil } := by
  intro ts
  induction ts with
  | nil => intro a h; exact absurd rfl h
  | cons t rest ih =>
    intro a h
    rcases rest with _ | ⟨t2, rest2⟩
    · show some (failUpdate a t) = _
      have hc := failUpdate_count a t
      have hl := failUpdate_lastAttempt a t
      have hu := failUpdate_lockedUntil a t
      simp only [List.getLast_singleton, List.length_cons, List.length_nil]
      cases hfa : failUpdate a t with
      | mk c la lu =>
        rw [hfa] at hc hl hu
        simp only at hc hl hu
        subst hc; subst hl; subst hu
        rfl
    · have hne : (t2 :: rest2) ≠ [] := by simp
      have step : iterFail (some a) (t :: t2 :: rest2)
          = iterFail (some (failUpdate a t)) (t2 :: rest2) := rfl
      rw [step, ih (failUpdate a t) hne]
      have hc := failUpdate_count a t
      have hu := failUpdate_lockedUntil a t
      have hlast : (t :: t2 :: rest2).getLast h = (t2 :: rest2).getLast hne := by
        simp [List.getLast_cons]
      congr 1
      have hlen : (t :: t2 :: rest2).length = (t2 :: rest2).length + 1 := rfl
      have hcount : (failUpdate a t).count + (t2 :: rest2).length
          = a.count + (t :: t2 :: rest2).length := by
        rw [hc, hlen]; omega
      refine LoginAttempt.mk.injEq _ _ _ _ _ _ ▸ ?_
      refine ⟨hcount, hlast.symm, ?_⟩
      by_cases hth : lockoutThreshold ≤ a.count + (t :: t2 :: rest2).length
      · rw [if_pos (hcount ▸ hth), if_pos hth, hlast]
      · rw [if_neg (fun hcon => hth (hcount ▸ hcon)), if_neg hth, hu,
          if_neg (by rw [hlen] at hth; omega)]

/-- Characterization of a nonempty run of failures starting from no record:
count is the number of failures, and the lock appears exactly when that
count reaches the threshold. -/
theorem iterFail_none_char :
    ∀ (ts : List Nat) (h : ts ≠ []),
      iterFail none ts
        = some { count := ts.length, lastAttempt := ts.getLast h,
                 lockedUntil :=
                   if lockoutThreshold ≤ ts.length then
                     some (ts.getLast h + lockoutDurationMs)
                   else none } := by
  intro ts h
  rcases ts with _ | ⟨t, rest⟩
  · exact absurd rfl h
  · have hfirst : iterFail none (t :: rest)
        = iterFail (some (failUpdate (freshAttempt t) t)) rest := rfl
    have hfa : failUpdate (freshAttempt t) t
        = { count := 1, lastAttempt := t, lockedUntil := none } := by
      unfold failUpdate freshAttempt lockoutThreshold
      norm_num
    rcases rest with _ | ⟨t2, rest2⟩
    · rw [hfirst, hfa]
      show some _ = _
      simp [lockoutThreshold]
    · have hne : (t2 :: rest2) ≠ [] := by simp
      rw [hfirst, hfa, iterFail_some_char (t2 :: rest2) _ hne]
      have hlast : (t :: t2 :: rest2).getLast h = (t2 :: rest2).getLast hne := by
        simp [List.getLast_cons]
      congr 1
      refine LoginAttempt.mk.injEq _ _ _ _ _ _ ▸ ?_
      constructor
      · simp only [List.length_cons]; omega
      constructor
      · exact hlast.symm
      · have hlen : (1 : Nat) + (t2 :: rest2).length = (t :: t2 :: rest2).length := by
          simp only [List.length_cons]; omega
        rw [hlen, hlast]

/-! ### Claim theorems for the lockout tracker -/

/-- C1: for every identifier, 9 failed login attempts leave the account
unlocked (`lockedUntil = none`) and `checkAccountLockout` still passes the
request on; the 10th failed attempt sets `lockedUntil` to its time plus the
5-minute lockout duration; and for any instant before that expiry,
`checkAccountLockout` — a function of the in-memory map and the clock alone,
never of the primary store — rejects with HTTP status 423 and the
remaining-minutes message. -/
theorem lockout_threshold_C1 (id : String) (ts : List Nat)
    (t10 nowCheck now2 : Nat) (h9 : ts.length = 9)
    (hwin : now2 < t10 + lockoutDurationMs) :
    (∃ la, lookupAttempt (runOps [] (ts.map (fun t => LockoutOp.fail id t))) id
        = some { count := 9, lastAttempt := la, lockedUntil := none })
    ∧ checkAccountLockout (runOps [] (ts.map (fun t => LockoutOp.fail id t)))
        id nowCheck = none
    ∧ lookupAttempt (recordLoginAttempt
        (runOps [] (ts.map (fun t => LockoutOp.fail id t))) id false t10) id
        = some { count := 10, lastAttempt := t10,
                 lockedUntil := some (t10 + lockoutDurationMs) }
    ∧ checkAccountLockout (recordLoginAttempt
        (runOps [] (ts.map (fun t => LockoutOp.fail id t))) id false t10) id now2
        = some { status := 423,
                 message := lockedMessage (t10 + lockoutDurationMs) now2 } := by
  have hne : ts ≠ [] := by
    intro hnil
    rw [hnil] at h9
    simp at h9
  have hrun := runOps_fails_eq_iterFail id ts []
  have hnone : lookupAttempt ([] : AttemptMap) id = none := rfl
  rw [hnone, iterFail_none_char ts hne, h9] at hrun
  rw [if_neg (by norm_num [lockoutThreshold])] at hrun
  refine ⟨⟨ts.getLast hne, hrun⟩, ?_, ?_, ?_⟩
  · simp [checkAccountLockout, hrun]
  · rw [lookupAttempt_recordFail, hrun]
    show some (failUpdate _ t10) = _
    simp only [Option.getD_some, failUpdate]
    rw [if_pos (by norm_num [lockoutThreshold])]
  · have hlook : lookupAttempt (recordLoginAttempt
        (runOps [] (ts.map (fun t => LockoutOp.fail id t))) id false t10) id
        = some { count := 10, lastAttempt := t10,
                 lockedUntil := some (t10 + lockoutDurationMs) } := by
      rw [lookupAttempt_recordFail, hrun]
      show some (failUpdate _ t10) = _
      simp only [Option.getD_some, failUpdate]
      rw [if_pos (by norm_num [lockoutThreshold])]
    simp [checkAccountLockout, hlook, hwin]

theorem lockout_threshold_C1_witness :
    (List.replicate 9 0).length = 9 ∧ (1 : Nat) < 0 + lockoutDurationMs ∧
    ((∃ la, lookupAttempt (runOps []
        ((List.replicate 9 0).map (fun t => LockoutOp.fail "x" t))) "x"
        = some { count := 9, lastAttempt := la, lockedUntil := none })
    ∧ checkAccountLockout (runOps []
        ((List.replicate 9 0).map (fun t => LockoutOp.fail "x" t))) "x" 0 = none
    ∧ lookupAttempt (recordLoginAttempt (runOps []
        ((List.replicate 9 0).map (fun t => LockoutOp.fail "x" t))) "x" false 0) "x"
        = some { count := 10, lastAttempt := 0,
                 lockedUntil := some (0 + lockoutDurationMs) }
    ∧ checkAccountLockout (recordLoginAttempt (runOps []
        ((List.replicate 9 0).map (fun t => LockoutOp.fail "x" t))) "x" false 0) "x" 1
        = some { status := 423,
                 message := lockedMessage (0 + lockoutDurationMs) 1 }) :=
  ⟨by decide, by norm_num [lockoutDurationMs],
   lockout_threshold_C1 "x" (List.replicate 9 0) 0 0 1 (by decide)
     (by norm_num [lockoutDurationMs])⟩

/-- C9: a successful authentication deletes the identifier's login-attempt
record entirely — whatever its state was — so the next failed attempt lazily
recreates it with `count = 1` (i.e. the counter restarted from 0) and no
lockout. -/
theorem success_resets_C9 (m : AttemptMap) (id : String) (now t2 : Nat) :
    lookupAttempt (recordLoginAttempt m id true now) id = none
    ∧ lookupAttempt (recordLoginAttempt (recordLoginAttempt m id true now)
        id false t2) id
        = some { count := 1, lastAttempt := t2, lockedUntil := none } := by
  refine ⟨lookupAttempt_recordSuccess m id now, ?_⟩
  rw [lookupAttempt_recordFail, lookupAttempt_recordSuccess]
  show some (failUpdate (freshAttempt t2) t2) = _
  simp only [failUpdate, freshAttempt]
  rw [if_neg (by norm_num [lockoutThreshold])]

/-- C8: `recordLoginAttempt` is fully synchronous (no suspension point) in
the single-threaded event loop, so each call is atomic and any interleaving
of N failed attempts for one identifier is some sequence of the N calls.
For every such sequence: the final counter equals N (no lost update), and
for every nonempty prefix of length k the record is locked iff k has reached
the threshold — so the unlocked-to-locked transition happens exactly once,
at the attempt that crosses the threshold. -/
theorem concurrent_increment_C8 (id : String) (ts : List Nat) (k : Nat)
    (hk1 : 1 ≤ k) (hk : k ≤ ts.length) :
    (∃ la lu, lookupAttempt
        (runOps [] (ts.map (fun t => LockoutOp.fail id t))) id
        = some { count := ts.length, lastAttempt := la, lockedUntil := lu })
    ∧ (∃ la lu, lookupAttempt
        (runOps [] ((ts.take k).map (fun t => LockoutOp.fail id t))) id
        = some { count := k, lastAttempt := la, lockedUntil := lu }
        ∧ (lu.isSome = true ↔ lockoutThreshold ≤ k)) := by
  have hne : ts ≠ [] := by
    intro hnil
    rw [hnil] at hk
    simp at hk
    omega
  have htk : (ts.take k).length = k := by
    rw [List.length_take]
    omega
  have htkne : ts.take k ≠ [] := by
    intro hnil
    rw [hnil] at htk
    simp at htk
    omega
  constructor
  · have hrun := runOps_fails_eq_iterFail id ts []
    have hnone : lookupAttempt ([] : AttemptMap) id = none := rfl
    rw [hnone, iterFail_none_char ts hne] at hrun
    exact ⟨ts.getLast hne, _, hrun⟩
  · have hrun := runOps_fails_eq_iterFail id (ts.take k) []
    have hnone : lookupAttempt ([] : AttemptMap) id = none := rfl
    rw [hnone, iterFail_none_char (ts.take k) htkne, htk] at hrun
    refine ⟨(ts.take k).getLast htkne, _, hrun, ?_⟩
    by_cases hth : lockoutThreshold ≤ k
    · rw [if_pos hth]
      simp [hth]
    · rw [if_neg hth]
      simp [hth]

theorem concurrent_increment_C8_witness :
    (1 : Nat) ≤ 10 ∧ (10 : Nat) ≤ (List.replicate 50 0).length ∧
    ((∃ la lu, lookupAttempt
        (runOps [] ((List.replicate 50 (0 : Nat)).map
          (fun t => LockoutOp.fail "x" t))) "x"
        = some { count := (List.replicate 50 (0 : Nat)).length,
                 lastAttempt := la, lockedUntil := lu })
    ∧ (∃ la lu, lookupAttempt
        (runOps [] (((List.replicate 50 (0 : Nat)).take 10).map
          (fun t => LockoutOp.fail "x" t))) "x"
        = some { count := 10, lastAttempt := la, lockedUntil := lu }
        ∧ (lu.isSome = true ↔ lockoutThreshold ≤ 10))) :=
  ⟨by decide, by decide,
   concurrent_increment_C8 "x" (List.replicate 50 0) 10 (by decide) (by decide)⟩

/-- C10: once a record's counter is at or above the threshold, every further
failed attempt — even a single one arriving after the previous lockout has
expired — immediately re-locks for the full 5-minute duration; ten new
failures are not needed, because a lockout check never clears the (possibly
expired) record: only the hourly sweep or a successful login does. -/
theorem relock_after_expiry_C10 (m : AttemptMap) (id : String)
    (a : LoginAttempt) (lu now now2 : Nat)
    (hl : lookupAttempt m id = some a) (hc : lockoutThreshold ≤ a.count)
    (hexp : a.lockedUntil = some lu) (hpast : lu < now)
    (hwin : now2 < now + lockoutDurationMs) :
    checkAccountLockout m id now = none
    ∧ applyOp m (LockoutOp.check id now) = m
    ∧ lookupAttempt (recordLoginAttempt m id false now) id
        = some { count := a.count + 1, lastAttempt := now,
                 lockedUntil := some (now + lockoutDurationMs) }
    ∧ checkAccountLockout (recordLoginAttempt m id false now) id now2
        = some { status := 423,
                 message := lockedMessage (now + lockoutDurationMs) now2 } := by
  have hlook : lookupAttempt (recordLoginAttempt m id false now) id
      = some { count := a.count + 1, lastAttempt := now,
               lockedUntil := some (now + lockoutDurationMs) } := by
    rw [lookupAttempt_recordFail, hl]
    show some (failUpdate a now) = _
    simp only [failUpdate]
    rw [if_pos (by omega : lockoutThreshold ≤ a.count + 1)]
  refine ⟨?_, rfl, hlook, ?_⟩
  · simp [checkAccountLockout, hl, hexp]
    omega
  · simp [checkAccountLockout, hlook, hwin]

/-- A sample record already at the threshold whose lockout has expired by
time 301000, used to instantiate `relock_after_expiry_C10`. -/
def expiredLockedRec : LoginAttempt :=
  { count := 10, lastAttempt := 0, lockedUntil := some 300000 }

def expiredLockedMap : AttemptMap := [("x", expiredLockedRec)]

theorem relock_after_expiry_C10_witness :
    lookupAttempt expiredLockedMap "x" = some expiredLockedRec
    ∧ lockoutThreshold ≤ expiredLockedRec.count
    ∧ expiredLockedRec.lockedUntil = some 300000
    ∧ (300000 : Nat) < 301000
    ∧ (301001 : Nat) < 301000 + lockoutDurationMs
    ∧ (checkAccountLockout expiredLockedMap "x" 301000 = none
      ∧ applyOp expiredLockedMap (LockoutOp.check "x" 301000) = expiredLockedMap
      ∧ lookupAttempt (recordLoginAttempt expiredLockedMap "x" false 301000) "x"
        = some { count := expiredLockedRec.count + 1, lastAttempt := 301000,
                 lockedUntil := some (301000 + lockoutDurationMs) }
      ∧ checkAccountLockout (recordLoginAttempt expiredLockedMap "x" false 301000)
          "x" 301001
        = some { status := 423,
                 message := lockedMessage (301000 + lockoutDurationMs) 301001 }) :=
  ⟨by decide, by decide, by decide, by decide, by norm_num [lockoutDurationMs],
   relock_after_expiry_C10 expiredLockedMap "x" expiredLockedRec 300000 301000
     301001 (by decide) (by decide) (by decide) (by decide)
     (by norm_num [lockoutDurationMs])⟩

/-! ### The lockout invariant (C7) -/

/-- The part of the claimed invariant that the code maintains: a record's
`lockedUntil` is present only when its counter has reached the threshold. -/
def lockedImpliesThreshold (m : AttemptMap) : Prop :=
  ∀ p ∈ m, p.2.lockedUntil.isSome = true → lockoutThreshold ≤ p.2.count

theorem exists_mem_of_lookupAttempt (m : AttemptMap) (id : String)
    (a : LoginAttempt) (h : lookupAttempt m id = some a) :
    ∃ p ∈ m, p.2 = a := by
  unfold lookupAttempt at h
  cases hf : List.find? (fun p => p.1 == id) m with
  | none => rw [hf] at h; simp at h
  | some p =>
    rw [hf] at h
    simp at h
    exact ⟨p, List.mem_of_find?_eq_some hf, h⟩

theorem applyOp_preserves_lockedImpliesThreshold (m : AttemptMap)
    (op : LockoutOp) (h : lockedImpliesThreshold m) :
    lockedImpliesThreshold (applyOp m op) := by
  cases op with
  | fail id now =>
    intro p hp hsome
    have hp2 : p = (id, failUpdate ((lookupAttempt m id).getD (freshAttempt now)) now)
        ∨ p ∈ eraseAttempt m id := by
      simpa [applyOp, recordLoginAttempt, setAttempt] using hp
    rcases hp2 with hid | hmem
    · rw [hid]
      rw [hid] at hsome
      simp only at hsome ⊢
      set a := (lookupAttempt m id).getD (freshAttempt now) with ha
      rw [failUpdate_count]
      rw [failUpdate_lockedUntil] at hsome
      by_cases hth : lockoutThreshold ≤ a.count + 1
      · exact hth
      · rw [if_neg hth] at hsome
        cases hlk : lookupAttempt m id with
        | none =>
          rw [ha, hlk] at hsome
          simp [freshAttempt] at hsome
        | some a0 =>
          obtain ⟨q, hq, hq2⟩ := exists_mem_of_lookupAttempt m id a0 hlk
          have := h q hq
          rw [hq2] at this
          have hc := this (by rw [ha, hlk] at hsome; simpa using hsome)
          rw [ha, hlk]
          simp only [Option.getD_some]
          omega
    · exact h p (List.mem_of_mem_filter hmem) hsome
  | succeed id now =>
    intro p hp hsome
    have hmem : p ∈ m := by
      simp only [applyOp, recordLoginAttempt] at hp
      exact List.mem_of_mem_filter hp
    exact h p hmem hsome
  | check id now =>
    exact h
  | sweep now =>
    intro p hp hsome
    exact h p (List.mem_of_mem_filter hp) hsome

theorem runOps_preserves_lockedImpliesThreshold :
    ∀ (ops : List LockoutOp) (m : AttemptMap), lockedImpliesThreshold m →
      lockedImpliesThreshold (runOps m ops) := by
  intro ops
  induction ops with
  | nil => intro m h; exact h
  | cons op rest ih =>
    intro m h
    exact ih (applyOp m op) (applyOp_preserves_lockedImpliesThreshold m op h)

/-- C7 (amended): over every sequence of failed attempts, successes, lockout
checks and sweeps, a reachable record has `lockedUntil` present only if its
counter has reached the threshold (10); and whenever a failed attempt sets or
refreshes `lockedUntil`, the stored instant `now + lockoutDurationMs` is
strictly in the future at that moment. (The original claim's stronger reading
— that a present `lockedUntil` is strictly in the future in every reachable
state — is refuted by `lockout_invariant_C7_counterexample`: an expired lock
persists until a sweep or a successful login deletes the record.) -/
theorem lockout_invariant_C7 (ops : List LockoutOp) (id : String)
    (a : LoginAttempt) (h : lookupAttempt (runOps [] ops) id = some a)
    (hs : a.lockedUntil.isSome = true) :
    lockoutThreshold ≤ a.count
    ∧ ∀ (b : LoginAttempt) (now : Nat), lockoutThreshold ≤ b.count + 1 →
        (failUpdate b now).lockedUntil = some (now + lockoutDurationMs)
        ∧ now < now + lockoutDurationMs := by
  constructor
  · have hinv : lockedImpliesThreshold (runOps [] ops) :=
      runOps_preserves_lockedImpliesThreshold ops [] (by intro p hp; simp at hp)
    obtain ⟨p, hp, hp2⟩ := exists_mem_of_lookupAttempt _ id a h
    have := hinv p hp
    rw [hp2] at this
    exact this hs
  · intro b now hth
    refine ⟨?_, by norm_num [lockoutDurationMs]⟩
    rw [failUpdate_lockedUntil, if_pos hth]

theorem lockout_invariant_C7_witness :
    lookupAttempt (runOps [] (List.replicate 10 (LockoutOp.fail "x" 0))) "x"
      = some { count := 10, lastAttempt := 0, lockedUntil := some 300000 }
    ∧ (some (300000 : Nat)).isSome = true
    ∧ (lockoutThreshold ≤ 10
      ∧ ∀ (b : LoginAttempt) (now : Nat), lockoutThreshold ≤ b.count + 1 →
          (failUpdate b now).lockedUntil = some (now + lockoutDurationMs)
          ∧ now < now + lockoutDurationMs) :=
  ⟨by decide, by decide,
   lockout_invariant_C7 (List.replicate 10 (LockoutOp.fail "x" 0)) "x"
     { count := 10, lastAttempt := 0, lockedUntil := some 300000 }
     (by decide) (by decide)⟩

/-- C7 counterexample: the claim "whenever `lockedUntil` is present it lies
strictly in the future" fails on a reachable state. Ten failed attempts for
"x" at time 0 lock the record until 300000; a lockout check at time 301000
(a time-monotone trace) leaves the record in place with its `lockedUntil`
now in the past. -/
theorem lockout_invariant_C7_counterexample :
    timesMono 0 (List.replicate 10 (LockoutOp.fail "x" 0)
      ++ [LockoutOp.check "x" 301000]) = true
    ∧ lookupAttempt (runOps [] (List.replicate 10 (LockoutOp.fail "x" 0)
        ++ [LockoutOp.check "x" 301000])) "x"
      = some { count := 10, lastAttempt := 0, lockedUntil := some 300000 }
    ∧ ¬ (301000 : Nat) < 300000 := by
  refine ⟨by decide, by decide, by decide⟩

/-! ## Shared cache store (src/services/cache.ts) -/

/-- State of the `CacheService` singleton: the `isConnected` flag maintained
by the Redis event handlers, and the backing key/value store. -/
structure CacheState where
  isConnected : Bool
  store : List (String × String)
  deriving Repr, DecidableEq

/-- The underlying `redis.get` call: throws (models the rejected promise)
when the backend fails, otherwise returns the stored value or null. -/
def redisGet (s : CacheState) (key : String) (fails : Bool) :
    Except String (Option String) :=
  if fails then Except.error "connection error"
  else Except.ok ((s.store.find? (fun p => p.1 == key)).map (fun p => p.2))

/-- The underlying `redis.setex` call. -/
def redisSetex (s : CacheState) (key value : String) (fails : Bool) :
    Except String CacheState :=
  if fails then Except.error "connection error"
  else Except.ok { s with
    store := (key, value) :: s.store.filter (fun p => p.1 != key) }

/-- The underlying `redis.del` call. -/
def redisDel (s : CacheState) (key : String) (fails : Bool) :
    Except String CacheState :=
  if fails then Except.error "connection error"
  else Except.ok { s with store := s.store.filter (fun p => p.1 != key) }

/-- `CacheService.get`: returns null immediately when disconnected; wraps the
backend call in try/catch and converts any thrown error into a null result
(the catch block only logs). The caller can only ever observe a value or
`none`, never an error. -/
def cacheGet (s : CacheState) (key : String) (fails : Bool) : Option String :=
  if !s.isConnected then none
  else
    match redisGet s key fails with
    | Except.ok d => d
    | Except.error _ => none

/-- `CacheService.set`: returns immediately when disconnected; any error from
`setex` is caught and logged, leaving the store as it was. -/
def cacheSet (s : CacheState) (key value : String) (fails : Bool) : CacheState :=
  if !s.isConnected then s
  else
    match redisSetex s key value fails with
    | Except.ok s2 => s2
    | Except.error _ => s

/-- `CacheService.del`: returns immediately when disconnected; any error from
`del` is caught and logged, leaving the store as it was. -/
def cacheDel (s : CacheState) (key : String) (fails : Bool) : CacheState :=
  if !s.isConnected then s
  else
    match redisDel s key fails with
    | Except.ok s2 => s2
    | Except.error _ => s

/-- C2: fail-open cache. Whenever the backend is disconnected or the
underlying call throws, `get` returns a miss and `set`/`del` complete,
leaving the state untouched; no error reaches the caller (the operations
return plain values, with every backend `Except.error` consumed inside). -/
theorem cache_fail_open_C2 (s : CacheState) (key value : String) (fails : Bool)
    (h : s.isConnected = false ∨ fails = true) :
    cacheGet s key fails = none
    ∧ cacheSet s key value fails = s
    ∧ cacheDel s key fails = s := by
  rcases h with h | h
  · simp [cacheGet, cacheSet, cacheDel, h]
  · cases hc : s.isConnected <;>
      simp [cacheGet, cacheSet, cacheDel, redisGet, redisSetex, redisDel, h, hc]

theorem cache_fail_open_C2_witness :
    ((CacheState.mk false [("k", "v")]).isConnected = false ∨ true = true)
    ∧ (cacheGet (CacheState.mk false [("k", "v")]) "k" true = none
      ∧ cacheSet (CacheState.mk false [("k", "v")]) "k" "w" true
          = CacheState.mk false [("k", "v")]
      ∧ cacheDel (CacheState.mk false [("k", "v")]) "k" true
          = CacheState.mk false [("k", "v")]) :=
  ⟨Or.inl rfl,
   cache_fail_open_C2 (CacheState.mk false [("k", "v")]) "k" "w" true
     (Or.inl rfl)⟩

/-! ## Socket event handlers (src/index.ts) -/

/-- How an emit call addresses its audience:
`toSelf` is `socket.emit` (only the acting client),
`toOthers` is `socket.to(roomId).emit` (room members except the sender),
`toRoom` is `io.to(roomId).emit` (all room members, sender included). -/
inductive EmitKind where
  | toSelf
  | toOthers
  | toRoom
  deriving Repr, DecidableEq

/-- One emit performed by a handler. -/
structure EmittedEvent where
  name : String
  roomId : String
  senderId : String
  kind : EmitKind
  deriving Repr, DecidableEq

/-- `CacheService.addRoomParticipant` (cache.ts): reads the participant list,
appends the user only when not yet present, and writes it back. -/
def addRoomParticipant (participants : List String) (userId : String) :
    List String :=
  if userId ∈ participants then participants else participants ++ [userId]

/-- The `join_room` handler (index.ts): joins the socket.io room, adds the
user to the cached participant set, confirms `room_joined` back to the
client, and — unconditionally, with no membership check — broadcasts
`user_joined_room` to the other members. Returns the updated participant
list and the emits performed. -/
def joinRoomHandler (participants : List String) (userId roomId : String) :
    List String × List EmittedEvent :=
  (addRoomParticipant participants userId,
   [{ name := "room_joined", roomId := roomId, senderId := userId,
      kind := EmitKind.toSelf },
    { name := "user_joined_room", roomId := roomId, senderId := userId,
      kind := EmitKind.toOthers }])

/-- The `send_message` handler (index.ts): if no roomId can be extracted from
the payload it returns without emitting; otherwise it broadcasts
`receive_message` to the whole room via `io.to`. -/
def sendMessageHandler (senderId : String) (roomId? : Option String) :
    List EmittedEvent :=
  match roomId? with
  | none => []
  | some rid =>
    [{ name := "receive_message", roomId := rid, senderId := senderId,
       kind := EmitKind.toRoom }]

/-- Delivery of one emitted event given the room's current member sessions:
`socket.to` excludes the emitting session, `io.to` does not. -/
def recipients (e : EmittedEvent) (members : List String) : List String :=
  match e.kind with
  | EmitKind.toSelf => [e.senderId]
  | EmitKind.toOthers => members.filter (fun m => m != e.senderId)
  | EmitKind.toRoom => members

/-- Number of emits of a given event name in a list. -/
def countEvent (evs : List EmittedEvent) (n : String) : Nat :=
  (evs.filter (fun e => e.name == n)).length

/-- C3 counterexample: joining the same room twice from the same session
leaves the participant set unchanged after the first call, but the two calls
broadcast `user_joined_room` twice — not once as claimed, since the handler
emits it unconditionally on every `join_room`. -/
theorem join_idempotent_C3_counterexample :
    (joinRoomHandler (joinRoomHandler ["alice"] "bob" "roomA").1 "bob" "roomA").1
      = (joinRoomHandler ["alice"] "bob" "roomA").1
    ∧ countEvent ((joinRoomHandler ["alice"] "bob" "roomA").2
        ++ (joinRoomHandler (joinRoomHandler ["alice"] "bob" "roomA").1
             "bob" "roomA").2) "user_joined_room" = 2
    ∧ countEvent ((joinRoomHandler ["alice"] "bob" "roomA").2
        ++ (joinRoomHandler (joinRoomHandler ["alice"] "bob" "roomA").1
             "bob" "roomA").2) "user_joined_room" ≠ 1 := by
  refine ⟨by decide, by decide, by decide⟩

theorem addRoomParticipant_idem (ps : List String) (uid : String) :
    addRoomParticipant (addRoomParticipant ps uid) uid
      = addRoomParticipant ps uid := by
  by_cases h : uid ∈ ps
  · have h1 : addRoomParticipant ps uid = ps := by
      unfold addRoomParticipant
      rw [if_pos h]
    rw [h1, h1]
  · have h1 : addRoomParticipant ps uid = ps ++ [uid] := by
      unfold addRoomParticipant
      rw [if_neg h]
    rw [h1]
    unfold addRoomParticipant
    rw [if_pos (List.mem_append_right ps (by simp))]

/-- C3 (amended): a repeated `join(S, R)` leaves R's membership set unchanged
(`addRoomParticipant` is idempotent), but each of the two calls broadcasts
its own `user_joined_room` notification, so the peers receive two across the
two calls, not one. -/
theorem join_idempotent_C3 (participants : List String) (userId roomId : String) :
    (joinRoomHandler (joinRoomHandler participants userId roomId).1
        userId roomId).1
      = (joinRoomHandler participants userId roomId).1
    ∧ countEvent ((joinRoomHandler participants userId roomId).2
        ++ (joinRoomHandler (joinRoomHandler participants userId roomId).1
             userId roomId).2) "user_joined_room" = 2 := by
  exact ⟨addRoomParticipant_idem participants userId, rfl⟩

/-- Connection-level state the disconnect handler touches: the online-users
cache entries and the cached per-room participant sets. -/
structure ConnState where
  onlineUsers : List String
  roomParticipants : List (String × List String)
  deriving Repr, DecidableEq

/-- `CacheService.removeOnlineUser`: deletes the user's online-user entry. -/
def removeOnlineUser (st : ConnState) (userId : String) : ConnState :=
  { st with onlineUsers := st.onlineUsers.filter (fun u => u != userId) }

/-- The `disconnect` handler (index.ts lines 311–333): removes the user from
the online-users cache and logs the disconnect. It does not iterate the
session's joined rooms, does not call `removeRoomParticipant`, and emits no
events. -/
def disconnectHandler (st : ConnState) (userId : String) :
    ConnState × List EmittedEvent :=
  (removeOnlineUser st userId, [])

/-- C4 counterexample: a session for user "u" that joined rooms A, B and C
then disconnects. The handler leaves every room's participant set unchanged
("u" is still a member of all three) and emits zero `user_left_room`
notifications — not one per room as claimed. -/
theorem disconnect_cleanup_C4_counterexample :
    (disconnectHandler
        (ConnState.mk ["u"] [("A", ["u", "v"]), ("B", ["u", "v"]), ("C", ["u", "v"])])
        "u").1.roomParticipants
      = [("A", ["u", "v"]), ("B", ["u", "v"]), ("C", ["u", "v"])]
    ∧ countEvent (disconnectHandler
        (ConnState.mk ["u"] [("A", ["u", "v"]), ("B", ["u", "v"]), ("C", ["u", "v"])])
        "u").2 "user_left_room" = 0
    ∧ countEvent (disconnectHandler
        (ConnState.mk ["u"] [("A", ["u", "v"]), ("B", ["u", "v"]), ("C", ["u", "v"])])
        "u").2 "user_left_room" ≠ 1 := by
  refine ⟨rfl, rfl, by decide⟩

/-- C4 (amended): for every state and user, the disconnect handler only
deletes the user's online-user cache entry; every room's participant set is
left exactly as it was and no notification of any kind is emitted — room
membership cleanup happens only through an explicit `leave_room`. -/
theorem disconnect_cleanup_C4 (st : ConnState) (userId : String) :
    (disconnectHandler st userId).1.roomParticipants = st.roomParticipants
    ∧ (disconnectHandler st userId).1.onlineUsers
        = st.onlineUsers.filter (fun u => u != userId)
    ∧ (disconnectHandler st userId).2 = [] :=
  ⟨rfl, rfl, rfl⟩

/-- C5: fanout exclusion. The `user_joined_room` broadcast that `join_room`
performs goes through `socket.to(roomId)`, so the joining session itself is
never among the recipients while every other member is; the
`receive_message` broadcast that `send_message` performs goes through
`io.to(roomId)`, so the sender receives its own message along with every
other member. The handlers emit exactly one broadcast each. -/
theorem fanout_exclusion_C5 (participants members : List String)
    (sender other roomId : String) (hs : sender ∈ members)
    (ho : other ∈ members) (hne : other ≠ sender) :
    countEvent (joinRoomHandler participants sender roomId).2
        "user_joined_room" = 1
    ∧ (∀ e ∈ (joinRoomHandler participants sender roomId).2,
        e.name = "user_joined_room" →
          sender ∉ recipients e members ∧ other ∈ recipients e members)
    ∧ sendMessageHandler sender (some roomId)
        = [{ name := "receive_message", roomId := roomId, senderId := sender,
             kind := EmitKind.toRoom }]
    ∧ (∀ e ∈ sendMessageHandler sender (some roomId),
        sender ∈ recipients e members ∧ other ∈ recipients e members) := by
  refine ⟨rfl, ?_, rfl, ?_⟩
  · intro e he hname
    simp only [joinRoomHandler, List.mem_cons, List.not_mem_nil, or_false] at he
    rcases he with he | he
    · rw [he] at hname
      simp at hname
    · rw [he]
      constructor
      · intro hcon
        have := List.mem_filter.mp hcon
        simp at this
      · exact List.mem_filter.mpr ⟨ho, by simpa using hne⟩
  · intro e he
    simp only [sendMessageHandler, List.mem_singleton] at he
    rw [he]
    exact ⟨hs, ho⟩

theorem fanout_exclusion_C5_witness :
    "s" ∈ ["s", "o"] ∧ "o" ∈ ["s", "o"] ∧ "o" ≠ "s"
    ∧ (countEvent (joinRoomHandler [] "s" "r").2 "user_joined_room" = 1
      ∧ (∀ e ∈ (joinRoomHandler [] "s" "r").2,
          e.name = "user_joined_room" →
            "s" ∉ recipients e ["s", "o"] ∧ "o" ∈ recipients e ["s", "o"])
      ∧ sendMessageHandler "s" (some "r")
          = [{ name := "receive_message", roomId := "r", senderId := "s",
               kind := EmitKind.toRoom }]
      ∧ (∀ e ∈ sendMessageHandler "s" (some "r"),
          "s" ∈ recipients e ["s", "o"] ∧ "o" ∈ recipients e ["s", "o"])) :=
  ⟨by decide, by decide, by decide,
   fanout_exclusion_C5 [] ["s", "o"] "s" "o" "r" (by decide) (by decide)
     (by decide)⟩

/-! ## Resilient store connector (src/config/database.ts) -/

/-- Terminal result of the connect loop: a successful connection (after which
`isConnected = true` and the attempt counter resets), or the fatal branch
that calls `process.exit(1)` once the failed-attempt count has reached
`maxRetries`. -/
inductive ConnectOutcome where
  | connected
  | fatal
  deriving Repr, DecidableEq

/-- `retryConnection`: `delay = this.retryDelay * Math.pow(2, connectionAttempts - 1)`. -/
def retryDelayFor (retryDelay attempts : Nat) : Nat :=
  retryDelay * 2 ^ (attempts - 1)

/-- `DatabaseConnection.connect` as a loop over the outcomes of the
individual `mongoose.connect` calls (`true` = that call succeeds). Each call
first increments `connectionAttempts`; on success the loop ends `connected`;
on failure, if the count is still below `maxRetries` the loop sleeps
`retryDelayFor` and recurses, otherwise it ends `fatal` (`process.exit(1)`).
Returns the outcome, the total number of connect attempts made, and the list
of backoff delays slept between attempts; `none` when the supplied outcome
list is exhausted before the loop terminates. -/
def runConnect (maxRetries retryDelay : Nat) :
    List Bool → Nat → Option (ConnectOutcome × Nat × List Nat)
  | [], _ => none
  | ok :: rest, attempts =>
    let a := attempts + 1
    if ok then some (ConnectOutcome.connected, a, [])
    else if a < maxRetries then
      match runConnect maxRetries retryDelay rest a with
      | none => none
      | some (out, total, delays) =>
        some (out, total, retryDelayFor retryDelay a :: delays)
    else some (ConnectOutcome.fatal, a, [])

theorem runConnect_delays_get (maxRetries retryDelay : Nat) :
    ∀ (outcomes : List Bool) (attempts : Nat) (out : ConnectOutcome)
      (total : Nat) (delays : List Nat),
      runConnect maxRetries retryDelay outcomes attempts
        = some (out, total, delays) →
      ∀ (i : Nat) (hi : i < delays.length),
        delays.get ⟨i, hi⟩ = retryDelay * 2 ^ (attempts + i) := by
  intro outcomes
  induction outcomes with
  | nil => intro attempts out total delays h; simp [runConnect] at h
  | cons ok rest ih =>
    intro attempts out total delays h i hi
    rw [runConnect] at h
    by_cases hok : ok = true
    · rw [if_pos hok] at h
      simp only [Option.some.injEq, Prod.mk.injEq] at h
      obtain ⟨h1, h2, h3⟩ := h
      rw [← h3] at hi
      simp at hi
    · rw [if_neg hok] at h
      by_cases hlt : attempts + 1 < maxRetries
      · rw [if_pos hlt] at h
        cases hr : runConnect maxRetries retryDelay rest (attempts + 1) with
        | none => rw [hr] at h; simp at h
        | some r =>
          obtain ⟨out2, total2, delays2⟩ := r
          rw [hr] at h
          simp only [Option.some.injEq, Prod.mk.injEq] at h
          obtain ⟨h1, h2, h3⟩ := h
          subst h3
          cases i with
          | zero =>
            show retryDelayFor retryDelay (attempts + 1) = _
            simp [retryDelayFor]
          | succ j =>
            have hj : j < delays2.length := by
              simp only [List.length_cons] at hi
              omega
            have heq := ih (attempts + 1) out2 total2 delays2 hr j hj
            have harith : attempts + 1 + j = attempts + (j + 1) := by omega
            rw [harith] at heq
            show delays2.get ⟨j, hj⟩ = _
            exact heq
      · rw [if_neg hlt] at h
        simp only [Option.some.injEq, Prod.mk.injEq] at h
        obtain ⟨h1, h2, h3⟩ := h
        rw [← h3] at hi
        simp at hi

theorem runConnect_delays_strict_mono (maxRetries retryDelay : Nat)
    (hrd : 0 < retryDelay) (outcomes : List Bool) (out : ConnectOutcome)
    (total : Nat) (delays : List Nat)
    (h : runConnect maxRetries retryDelay outcomes 0 = some (out, total, delays)) :
    delays.Chain' (· < ·) := by
  rw [List.chain'_iff_get]
  intro i hi
  have h1 := runConnect_delays_get maxRetries retryDelay outcomes 0 out total
    delays h i (by omega)
  have h2 := runConnect_delays_get maxRetries retryDelay outcomes 0 out total
    delays h (i + 1) (by omega)
  rw [h1, h2]
  simp only [Nat.zero_add]
  have hpow : (2 : Nat) ^ i < 2 ^ (i + 1) := by
    have := Nat.pow_lt_pow_right (by norm_num : 1 < 2) (Nat.lt_succ_self i)
    exact this
  exact mul_lt_mul_of_pos_left hpow hrd

/-- C6: the connect loop's backoff. For every completed run, the delay slept
before retry attempt `n + 1` is `retryDelay * 2 ^ (n - 1)` (the i-th element
of the delay list, 0-based, is `retryDelay * 2 ^ i`), and the delays are
strictly increasing; two connect failures followed by a success make exactly
3 attempts, with increasing delays, and end `connected`; and with the default
`maxRetries = 3`, a third consecutive failure ends in the fatal
process-terminating branch after exactly 3 attempts, with no further retry. -/
theorem store_retry_backoff_C6 (retryDelay : Nat) (hrd : 0 < retryDelay) :
    (∀ (maxRetries : Nat) (outcomes : List Bool) (out : ConnectOutcome)
       (total : Nat) (delays : List Nat),
       runConnect maxRetries retryDelay outcomes 0 = some (out, total, delays) →
       (∀ (i : Nat) (hi : i < delays.length),
           delays.get ⟨i, hi⟩ = retryDelay * 2 ^ i)
       ∧ delays.Chain' (· < ·))
    ∧ runConnect 3 retryDelay [false, false, true] 0
        = some (ConnectOutcome.connected, 3, [retryDelay, retryDelay * 2])
    ∧ (∀ rest : List Bool, runConnect 3 retryDelay (false :: false :: false :: rest) 0
        = some (ConnectOutcome.fatal, 3, [retryDelay, retryDelay * 2])) := by
  refine ⟨?_, ?_, ?_⟩
  · intro maxRetries outcomes out total delays h
    constructor
    · intro i hi
      have := runConnect_delays_get maxRetries retryDelay outcomes 0 out total
        delays h i hi
      simpa using this
    · exact runConnect_delays_strict_mono maxRetries retryDelay hrd outcomes
        out total delays h
  · simp [runConnect, retryDelayFor]
  · intro rest
    simp [runConnect, retryDelayFor]

theorem store_retry_backoff_C6_witness :
    (0 : Nat) < 1
    ∧ ((∀ (maxRetries : Nat) (outcomes : List Bool) (out : ConnectOutcome)
         (total : Nat) (delays : List Nat),
         runConnect maxRetries 1 outcomes 0 = some (out, total, delays) →
         (∀ (i : Nat) (hi : i < delays.length),
             delays.get ⟨i, hi⟩ = 1 * 2 ^ i)
         ∧ delays.Chain' (· < ·))
      ∧ runConnect 3 1 [false, false, true] 0
          = some (ConnectOutcome.connected, 3, [1, 1 * 2])
      ∧ (∀ rest : List Bool, runConnect 3 1 (false :: false :: false :: rest) 0
          = some (ConnectOutcome.fatal, 3, [1, 1 * 2]))) :=
  ⟨by decide, store_retry_backoff_C6 1 (by decide)⟩
